import Mathlib

/-!
Verification of the nordstemmen-ai harvester core against its specification.

The development shallowly embeds the TypeScript sources:
  * `src/scraper/src/scraper.ts`  (metadata-keyed file scraper),
  * `src/scraper/src/client.ts`   (file-list page fetcher and binary download),
  * the paper/meeting collection crawler (`fetchAllPaperPages` et al.) and the
    Effect `Schema` declarations (`schema.ts`).

I/O is modelled by explicit oracles: an HTTP world mapping URLs to responses,
a binary-download world, a write-success oracle for the filesystem, and the
JavaScript `Date` parser as an abstract function.  The `Effect` bounded
concurrency loops (`Effect.all { concurrency: n }`) reassemble results in input
order, and all state mutation happens at cooperative suspension points, so the
run loops are embedded as sequential folds; the concurrency widths themselves
are recorded as constants.  The filesystem is a path-to-contents association
list (directories and `mkdir` are not tracked; `path.join a b` is `a ++ "/" ++ b`
for the plain segments the scraper produces).
-/

/-! ## Generic helpers -/

/-- First-match lookup in an association list (JS object property access). -/
def lookupAssoc {α : Type} (l : List (String × α)) (k : String) : Option α :=
  (l.find? (fun p => p.1 == k)).map (·.2)

/-- Whether list `l` starts with `pat`. -/
def listStartsWith {α : Type} [BEq α] : List α → List α → Bool
  | _, [] => true
  | [], _ :: _ => false
  | a :: as, b :: bs => a == b && listStartsWith as bs

/-- Whether `pat` occurs as a contiguous run inside `l`
(JS `String.prototype.includes` on char lists). -/
def listHasSub {α : Type} [BEq α] : List α → List α → Bool
  | [], pat => pat.isEmpty
  | a :: as, pat => listStartsWith (a :: as) pat || listHasSub as pat

/-- JS `s.includes(pat)`. -/
def strContains (s pat : String) : Bool :=
  listHasSub s.toList pat.toList

/-- JS `s.toLowerCase()`, characterwise over the string's characters. -/
def strToLower (s : String) : String :=
  String.mk (s.toList.map Char.toLower)

/-- Split a char list at every occurrence of `sep`; `acc` holds the current
segment reversed. -/
def splitCharAux (sep : Char) : List Char → List Char → List (List Char)
  | [], acc => [acc.reverse]
  | c :: cs, acc =>
    if c = sep then acc.reverse :: splitCharAux sep cs []
    else splitCharAux sep cs (c :: acc)

/-- JS `s.split(sep)` for a one-character separator (always at least one
segment; the empty string yields `[""]`). -/
def splitOnChar (sep : Char) (s : String) : List String :=
  (splitCharAux sep s.toList []).map String.mk

/-- Node `path.join` for one already-normalized segment appended to a base. -/
def pathJoin (a b : String) : String := a ++ "/" ++ b

/-- JS string truthiness of an optional string: `undefined` and `""` are falsy. -/
def jsTruthy : Option String → Bool
  | none => false
  | some s => s != ""

/-- Sequential translation of `Effect.all` over already-pure task results:
take each task's outcome in order, stopping at the first failure.  With
`{ concurrency: n }` the source reassembles results by input position, which
coincides with this fold on success. -/
def effectAll {α β ε : Type} (g : α → Except ε β) : List α → Except ε (List β)
  | [] => .ok []
  | a :: as =>
    match g a with
    | .error e => .error e
    | .ok b =>
      match effectAll g as with
      | .error e => .error e
      | .ok bs => .ok (b :: bs)

/-- Collect optional values of a list, failing if any is `none`. -/
def optionAll {α β : Type} (g : α → Option β) : List α → Option (List β)
  | [] => some []
  | a :: as =>
    match g a with
    | none => none
    | some b =>
      match optionAll g as with
      | none => none
      | some bs => some (b :: bs)

/-! ## Scraper data model (`schema.ts`, scraper variant) -/

/-- `OParlFileSchema`: id required, the rest optional strings. -/
structure OParlFile where
  id : String
  name : Option String
  mimeType : Option String
  date : Option String
  accessUrl : Option String
  downloadUrl : Option String
deriving DecidableEq, Repr

/-- `DocumentMetadata` entry stored per downloaded file in `metadata.json`. -/
structure MetaEntry where
  oparl_id : String
  filename : String
  access_url : String
  mime_type : Option String
  name : Option String
  date : Option String
  downloaded_at : String
deriving DecidableEq, Repr

/-- Path-to-contents view of the documents directory. -/
abbrev FsMap := List (String × String)

/-- In-memory `metadata` record keyed by OParl file id. -/
abbrev MetaMap := List (String × MetaEntry)

/-- Mutable state threaded through `processFile`: files on disk plus the
shared metadata object. -/
structure ScrapeState where
  fs : FsMap
  meta : MetaMap
deriving DecidableEq, Repr

/-- `ScraperConfig` from `scraper.ts`. -/
structure ScraperConfig where
  documentsDir : String
  metadataFile : Option String
deriving DecidableEq, Repr

/-- Outcome of one binary HTTP GET, as seen by `downloadFile`. -/
inductive BinOutcome where
  | netFail (msg : String)
  | resp (status : Nat) (statusText : String) (body : String)

/-- Result of `new Date(s)`: `none` models an invalid date (whose
`toISOString` throws, caught by `generateFilePath`); otherwise the year and
the `toISOString().split('T')[0]` day string. -/
structure DateParts where
  year : Int
  isoDay : String
deriving DecidableEq, Repr

/-- Oracles for one scraper run: binary downloads, filesystem write success,
and the JS `Date` constructor. -/
structure ScrapeWorld where
  bin : String → BinOutcome
  saveOk : String → Bool
  jsDate : String → Option DateParts

/-- Error taxonomy carried by the fetch/decode pipeline.  The source uses
`Error` values whose messages carry the same data (`HTTP status: text`,
`Failed to fetch`, `Failed to parse JSON`, Effect `ParseError`). -/
inductive FetchErr where
  | transport (msg : String)
  | httpStatus (status : Nat) (statusText : String)
  | jsonParse
  | decodeFail
deriving DecidableEq, Repr

/-- JS `Response.ok`: status in the 2xx range. -/
def respOk (status : Nat) : Bool :=
  200 ≤ status && status ≤ 299

/-- `downloadFile` from `client.ts`: fetch, fail on network error, fail on
non-2xx, otherwise return the body bytes. -/
def downloadFile (w : ScrapeWorld) (url : String) : Except FetchErr String :=
  match w.bin url with
  | .netFail m => .error (.transport m)
  | .resp s t body => if respOk s then .ok body else .error (.httpStatus s t)

/-! ## Folder naming (`generateFilePath`, `findUniqueFilename`) -/

/-- Replacement of the path-unsafe character class in the source regex. -/
def sanitizeChar (c : Char) : Char :=
  if c = '/' ∨ c = '\\' ∨ c = ':' ∨ c = '*' ∨ c = '?' ∨ c = '"' ∨
     c = '<' ∨ c = '>' ∨ c = '|' then '_' else c

/-- Collapse every whitespace run to a single underscore
(the `replace(\s+, _)` step); `inWs` records whether we are inside a run. -/
def collapseWsAux : Bool → List Char → List Char
  | _, [] => []
  | inWs, c :: cs =>
    if c.isWhitespace then
      if inWs then collapseWsAux true cs else '_' :: collapseWsAux true cs
    else c :: collapseWsAux false cs

/-- Name sanitization from `generateFilePath`. -/
def sanitizeName (s : String) : String :=
  String.mk (collapseWsAux false (s.toList.map sanitizeChar))

/-- JS `id.split('/').pop() || 'unknown'`. -/
def idTail (id : String) : String :=
  let seg := ((splitOnChar '/' id).getLast?).getD ""
  if seg = "" then "unknown" else seg

/-- `truncateFilename` with the default 200-char limit
(196 base chars plus the `.pdf` extension). -/
def truncateFilename (filename : String) : String :=
  if filename.length ≤ 200 then filename
  else filename.take 196 ++ ".pdf"

/-- `generateFilePath`: derive the year folder and base filename from a file
record's date, name and id only. -/
def generateFilePath (jsDate : String → Option DateParts) (file : OParlFile) :
    String × String :=
  let datePart : Option DateParts := file.date.bind jsDate
  let namePart : Option String := file.name.map sanitizeName
  let parts : List String :=
    (([datePart.map (·.isoDay), namePart] : List (Option String)).filterMap id).filter
      (fun s => s ≠ "")
  let filename :=
    if parts ≠ [] then String.intercalate "_" parts ++ ".pdf"
    else "file_" ++ idTail file.id ++ ".pdf"
  let year :=
    match datePart with
    | some d => toString d.year
    | none => "unknown"
  (year, truncateFilename filename)

/-- Drop the first occurrence of `.pdf` (JS `replace('.pdf', '')` replaces
only the first match). -/
def removeFirstPdf : List Char → List Char
  | [] => []
  | c :: cs =>
    if listStartsWith (c :: cs) ['.', 'p', 'd', 'f'] then cs.drop 3
    else c :: removeFirstPdf cs

/-- Candidate name used by the collision loop at a given counter. -/
def suffixedName (base : String) (counter : Nat) : String :=
  String.mk (removeFirstPdf base.toList) ++ "_" ++ Nat.repr counter ++ ".pdf"

/-- The `tryFilename` recursion of `findUniqueFilename`.  The source recurses
until a name misses the directory; the directory is finite and candidates use
strictly increasing counters, so a fuel of one more than the number of files
on disk covers every real run (on exhaustion the current candidate is kept). -/
def tryFilename (fs : FsMap) (yearDir base : String) :
    Nat → String → Nat → String
  | 0, name, _ => name
  | fuel + 1, name, counter =>
    if (lookupAssoc fs (pathJoin yearDir name)).isSome then
      tryFilename fs yearDir base fuel (suffixedName base counter) (counter + 1)
    else name

/-- `findUniqueFilename`: first try the base name, then `base_1.pdf`,
`base_2.pdf`, … until the name is free in `yearDir`. -/
def findUniqueFilename (fs : FsMap) (yearDir base : String) : String :=
  tryFilename fs yearDir base (fs.length + 1) base 1

/-- The relative path `join(year, filename)` computed in `processFile`
lines 124–127: year and base name from the record, uniquified against the
current directory contents. -/
def relativePathFor (jsDate : String → Option DateParts) (documentsDir : String)
    (fs : FsMap) (file : OParlFile) : String :=
  let yb := generateFilePath jsDate file
  let yearDir := pathJoin documentsDir yb.1
  pathJoin yb.1 (findUniqueFilename fs yearDir yb.2)

/-- The base target path (year directory plus un-suffixed filename) a record
would use if no collision handling happened. -/
def baseTargetPath (jsDate : String → Option DateParts) (documentsDir : String)
    (file : OParlFile) : String :=
  let yb := generateFilePath jsDate file
  pathJoin (pathJoin documentsDir yb.1) yb.2

/-! ## Per-file processing (`processFile`) -/

/-- Per-file outcome record returned by `processFile`. -/
structure FileResult where
  downloaded : Bool
  skipped : Bool
  error : Bool
deriving DecidableEq, Repr

/-- Outcome `{ downloaded: false, skipped: true, error: false }`. -/
def skipResult : FileResult := ⟨false, true, false⟩

/-- Outcome `{ downloaded: false, skipped: false, error: true }`. -/
def errorResult : FileResult := ⟨false, false, true⟩

/-- Outcome `{ downloaded: true, skipped: false, error: false }`. -/
def downloadedResult : FileResult := ⟨true, false, false⟩

/-- The mime gate: `file.mimeType?.toLowerCase().includes('pdf')`. -/
def mimeIsPdf : Option String → Bool
  | none => false
  | some m => strContains (strToLower m) "pdf"

/-- The URL selection `file.accessUrl || file.downloadUrl` followed by the
`if (!url)` guard: `none` exactly when the guard skips. -/
def urlOf (file : OParlFile) : Option String :=
  let cand := if jsTruthy file.accessUrl then file.accessUrl else file.downloadUrl
  if jsTruthy cand then cand else none

/-- The metadata entry written after a successful save. -/
def mkMetaEntry (file : OParlFile) (url relativePath now : String) : MetaEntry :=
  ⟨file.id, relativePath, url, file.mimeType, file.name, file.date, now⟩

/-- `processFile`: skip if the metadata marker exists, skip non-PDF mime types
and records without a URL, otherwise download, save and record metadata.
Besides the result and updated state it returns the list of URLs actually
fetched, so "no network activity" is a statement about the model. -/
def processFile (w : ScrapeWorld) (cfg : ScraperConfig) (now : String)
    (file : OParlFile) (st : ScrapeState) :
    FileResult × ScrapeState × List String :=
  if (lookupAssoc st.meta file.id).isSome then (skipResult, st, [])
  else if !mimeIsPdf file.mimeType then (skipResult, st, [])
  else
    match urlOf file with
    | none => (skipResult, st, [])
    | some url =>
      let relativePath := relativePathFor w.jsDate cfg.documentsDir st.fs file
      let filepath := pathJoin cfg.documentsDir relativePath
      match downloadFile w url with
      | .error _ => (errorResult, st, [url])
      | .ok bytes =>
        if w.saveOk filepath then
          (downloadedResult,
           ⟨(filepath, bytes) :: st.fs,
            (file.id, mkMetaEntry file url relativePath now) :: st.meta⟩,
           [url])
        else (errorResult, st, [url])

/-! ## Run aggregation (`countResults`, `runScraper`) -/

/-- The three run counters. -/
structure Counts where
  downloaded : Nat
  skipped : Nat
  errors : Nat
deriving DecidableEq, Repr

/-- One step of the `countResults` reduce. -/
def countStep (acc : Counts) (r : FileResult) : Counts :=
  ⟨acc.downloaded + (if r.downloaded then 1 else 0),
   acc.skipped + (if r.skipped then 1 else 0),
   acc.errors + (if r.error then 1 else 0)⟩

/-- `countResults`: reduce the per-file results into counters. -/
def countResults (rs : List FileResult) : Counts :=
  rs.foldl countStep ⟨0, 0, 0⟩

/-- Componentwise sum of counters. -/
def addCounts (a b : Counts) : Counts :=
  ⟨a.downloaded + b.downloaded, a.skipped + b.skipped, a.errors + b.errors⟩

/-- The `concurrency: 64` option of the `Effect.all` call processing files in
`runScraper` (scraper.ts line 221). -/
def runScraperConcurrency : Nat := 64

/-- The `concurrency: 32` option of the page-fetch `Effect.all` in
`fetchAllPaperPages` / `fetchAllMeetingPages`. -/
def pageFetchConcurrency : Nat := 32

/-- Sequentialized processing loop: each file is processed against the state
left by the previous ones (mutation happens only at suspension points in the
cooperative model).  Returns the final state and, per file, the result record
plus the URLs fetched for it. -/
def runFold (w : ScrapeWorld) (cfg : ScraperConfig) (now : String) :
    List OParlFile → ScrapeState → ScrapeState × List (FileResult × List String)
  | [], st => (st, [])
  | f :: rest, st =>
    let p := processFile w cfg now f st
    let q := runFold w cfg now rest p.2.1
    (q.1, (p.1, p.2.2) :: q.2)

/-- Observable outcome of one `runScraper` invocation: final directory
contents, final in-memory metadata, the on-disk metadata file after the run
(written only when something was downloaded), the per-file results and the
aggregated counters. -/
structure RunOutcome where
  fs : FsMap
  metaEnd : MetaMap
  diskMeta : Option MetaMap
  perFile : List (FileResult × List String)
  counts : Counts
deriving DecidableEq, Repr

/-- `runScraper` for a fixed remote file list: load `metadata.json` (empty
when absent), process every file, and save the metadata map back to disk only
when the run downloaded something. -/
def runScraperModel (w : ScrapeWorld) (cfg : ScraperConfig) (now : String)
    (files : List OParlFile) (disk0 : Option MetaMap) (fs0 : FsMap) :
    RunOutcome :=
  let meta0 := disk0.getD []
  let q := runFold w cfg now files ⟨fs0, meta0⟩
  let counts := countResults (q.2.map (·.1))
  ⟨q.1.fs, q.1.meta,
   if 0 < counts.downloaded then some q.1.meta else disk0,
   q.2, counts⟩

/-! ## JSON values and the Effect Schema decoders -/

/-- Decoded JSON values (numbers as integers; no numeric field of the
envelopes is ever read by the harvester). -/
inductive Json where
  | null
  | bool (b : Bool)
  | num (n : Int)
  | str (s : String)
  | arr (items : List Json)
  | obj (fields : List (String × Json))

/-- Object field access used by the struct decoders. -/
def jGet (fields : List (String × Json)) (k : String) : Option Json :=
  lookupAssoc fields k

/-- Decode of `S.optional(S.String)`: absent is `none`, a present string is
kept, any other present value is a decode failure. -/
def decodeOptStr (fields : List (String × Json)) (k : String) :
    Except FetchErr (Option String) :=
  match jGet fields k with
  | none => .ok none
  | some (.str s) => .ok (some s)
  | some _ => .error .decodeFail

/-- Decode of a required `S.String` field. -/
def decodeReqStr (fields : List (String × Json)) (k : String) :
    Except FetchErr String :=
  match jGet fields k with
  | some (.str s) => .ok s
  | _ => .error .decodeFail

/-- Decode of `S.optional(S.Array(S.Unknown))`. -/
def decodeOptArr (fields : List (String × Json)) (k : String) :
    Except FetchErr (Option (List Json)) :=
  match jGet fields k with
  | none => .ok none
  | some (.arr xs) => .ok (some xs)
  | some _ => .error .decodeFail

/-- Decode of `S.optional(S.Unknown)`: any present value is kept. -/
def decodeOptUnknown (fields : List (String × Json)) (k : String) :
    Option Json :=
  jGet fields k

/-- `OParlFileSchema` decode (scraper variant, with `date`). -/
def decodeOParlFile (j : Json) : Except FetchErr OParlFile :=
  match j with
  | .obj fs => do
    let id ← decodeReqStr fs "id"
    let name ← decodeOptStr fs "name"
    let mimeType ← decodeOptStr fs "mimeType"
    let date ← decodeOptStr fs "date"
    let accessUrl ← decodeOptStr fs "accessUrl"
    let downloadUrl ← decodeOptStr fs "downloadUrl"
    .ok ⟨id, name, mimeType, date, accessUrl, downloadUrl⟩
  | _ => .error .decodeFail

/-- Pagination links of `FileListResponseSchema` (`next` and `self` only —
this schema declares no `last` link). -/
structure FileLinks where
  next : Option String
  self : Option String
deriving DecidableEq, Repr

/-- `FileListResponseSchema`: raw data items plus optional links. -/
structure FileListResponse where
  data : List Json
  links : Option FileLinks

/-- `FileListResponseSchema` decode. -/
def decodeFileList (j : Json) : Except FetchErr FileListResponse :=
  match j with
  | .obj fs => do
    let dat ←
      (match jGet fs "data" with
       | some (.arr xs) => Except.ok xs
       | _ => Except.error FetchErr.decodeFail)
    let links ←
      (match jGet fs "links" with
       | none => Except.ok none
       | some (.obj lf) => do
         let nx ← decodeOptStr lf "next"
         let sf ← decodeOptStr lf "self"
         Except.ok (some (⟨nx, sf⟩ : FileLinks))
       | some _ => Except.error FetchErr.decodeFail)
    .ok ⟨dat, links⟩
  | _ => .error .decodeFail

/-- `OParlPaperSchema` decode target. -/
structure OParlPaper where
  id : String
  reference : Option String
  name : Option String
  paperType : Option String
  date : Option String
  mainFile : Option Json
  auxiliaryFile : Option (List Json)
  consultation : Option (List Json)
  relatedPaper : Option (List String)

/-- Decode of `S.optional(S.Array(S.String))`. -/
def decodeOptStrArr (fields : List (String × Json)) (k : String) :
    Except FetchErr (Option (List String)) :=
  match jGet fields k with
  | none => .ok none
  | some (.arr xs) =>
    match effectAll (fun x => match x with
      | Json.str s => Except.ok s
      | _ => Except.error FetchErr.decodeFail) xs with
    | .error e => .error e
    | .ok ss => .ok (some ss)
  | some _ => .error .decodeFail

/-- `OParlPaperSchema` decode. -/
def decodeOParlPaper (j : Json) : Except FetchErr OParlPaper :=
  match j with
  | .obj fs => do
    let id ← decodeReqStr fs "id"
    let reference ← decodeOptStr fs "reference"
    let name ← decodeOptStr fs "name"
    let paperType ← decodeOptStr fs "paperType"
    let date ← decodeOptStr fs "date"
    let auxiliaryFile ← decodeOptArr fs "auxiliaryFile"
    let consultation ← decodeOptArr fs "consultation"
    let relatedPaper ← decodeOptStrArr fs "relatedPaper"
    .ok ⟨id, reference, name, paperType, date, decodeOptUnknown fs "mainFile",
         auxiliaryFile, consultation, relatedPaper⟩
  | _ => .error .decodeFail

/-- Pagination links of the paper/meeting list schemas (`next` and `last`). -/
structure PageLinks where
  next : Option String
  last : Option String
deriving DecidableEq, Repr

/-- `PaperListResponseSchema` decode target. -/
structure PaperListResponse where
  data : List OParlPaper
  links : Option PageLinks

/-- `PaperListResponseSchema` decode: every data item must decode as a paper. -/
def decodePaperList (j : Json) : Except FetchErr PaperListResponse :=
  match j with
  | .obj fs => do
    let items ←
      (match jGet fs "data" with
       | some (.arr xs) => Except.ok xs
       | _ => Except.error FetchErr.decodeFail)
    let papers ← effectAll decodeOParlPaper items
    let links ←
      (match jGet fs "links" with
       | none => Except.ok none
       | some (.obj lf) => do
         let nx ← decodeOptStr lf "next"
         let ls ← decodeOptStr lf "last"
         Except.ok (some (⟨nx, ls⟩ : PageLinks))
       | some _ => Except.error FetchErr.decodeFail)
    .ok ⟨papers, links⟩
  | _ => .error .decodeFail

/-! ## HTTP world and the JSON fetch pipeline -/

/-- Outcome of one JSON-API HTTP GET: network failure, or a response with a
status, status text and a body (`none` models a body that is not valid JSON,
so that `response.json()` rejects). -/
inductive HttpOutcome where
  | netFail (msg : String)
  | resp (status : Nat) (statusText : String) (body : Option Json)

/-- The remote JSON API as a function from URL to response. -/
structure ApiWorld where
  http : String → HttpOutcome

/-- `effectFetchJson` (also the fetch/ok/json stages of `fetchPage` in
`client.ts`): fail on network error, fail with the status on non-2xx, fail if
the body is not valid JSON, else return the parsed JSON. -/
def effectFetchJson (w : ApiWorld) (url : String) : Except FetchErr Json :=
  match w.http url with
  | .netFail m => .error (.transport m)
  | .resp s t b =>
    if respOk s then
      match b with
      | some j => .ok j
      | none => .error .jsonParse
    else .error (.httpStatus s t)

/-- Success value of `fetchPage` in `client.ts`: the decoded files of one page
plus `decoded.links?.next`. -/
structure FilePage where
  files : List OParlFile
  nextUrl : Option String
deriving DecidableEq, Repr

/-- `fetchPage` from `client.ts`: one GET, decode the envelope, decode every
data item as an `OParlFile`, and return the files with the optional next
link.  (The envelope's other link values are not part of the result.) -/
def fetchPage (w : ApiWorld) (url : String) : Except FetchErr FilePage := do
  let j ← effectFetchJson w url
  let decoded ← decodeFileList j
  let files ← effectAll decodeOParlFile decoded.data
  .ok ⟨files, decoded.links.bind (·.next)⟩

/-- The `last` link literally present in a response body, used to state what
information `fetchPage` drops. -/
def lastLinkOf (j : Json) : Option String :=
  match j with
  | .obj fs =>
    match jGet fs "links" with
    | some (.obj lf) =>
      match jGet lf "last" with
      | some (.str s) => some s
      | _ => none
    | _ => none
  | _ => none

/-! ## URL model (WHATWG URL as used by the crawler) -/

/-- A URL split into the part before the query and its search parameters
(percent-encoding and fragments are not modelled; the crawler only reads and
sets the `page` parameter). -/
structure UrlM where
  base : String
  params : List (String × String)
deriving DecidableEq, Repr

/-- Parse one `key=value` query segment (no `=` means an empty value). -/
def parseParamSeg (seg : String) : String × String :=
  match splitOnChar '=' seg with
  | [] => (seg, "")
  | k :: rest => (k, String.intercalate "=" rest)

/-- `new URL(s)`: split at the first `?` into base and query parameters. -/
def parseUrl (s : String) : UrlM :=
  match splitOnChar '?' s with
  | [] => ⟨s, []⟩
  | base :: rest =>
    let query := String.intercalate "?" rest
    ⟨base, ((splitOnChar '&' query).filter (fun x => x ≠ "")).map parseParamSeg⟩

/-- `searchParams.get(k)`: first value or null. -/
def getParam (u : UrlM) (k : String) : Option String :=
  (u.params.find? (fun p => p.1 == k)).map (·.2)

/-- Replace the first occurrence of `k`, dropping later occurrences
(the WHATWG `URLSearchParams.set` behavior). -/
def setParamAux (k v : String) : List (String × String) → List (String × String)
  | [] => []
  | p :: ps =>
    if p.1 == k then (k, v) :: ps.filter (fun q => q.1 != k)
    else p :: setParamAux k v ps

/-- `searchParams.set(k, v)`. -/
def setParam (u : UrlM) (k v : String) : UrlM :=
  if (u.params.find? (fun p => p.1 == k)).isSome then ⟨u.base, setParamAux k v u.params⟩
  else ⟨u.base, u.params ++ [(k, v)]⟩

/-- Serialization of the URL model back to a string. -/
def urlToString (u : UrlM) : String :=
  if u.params.isEmpty then u.base
  else u.base ++ "?" ++
    String.intercalate "&" (u.params.map (fun p => p.1 ++ "=" ++ p.2))

/-- Leading decimal digits of a char list, `none` when there are none
(the NaN case of `parseInt`). -/
def digitsPrefix (l : List Char) : Option Nat :=
  let ds := l.takeWhile Char.isDigit
  if ds.isEmpty then none
  else some (ds.foldl (fun acc c => acc * 10 + (c.toNat - '0'.toNat)) 0)

/-- JS `Number.parseInt` on a trimmed decimal: optional sign then leading
digits; `none` models NaN. -/
def parseIntJS (s : String) : Option Int :=
  let t := s.toList.dropWhile Char.isWhitespace
  match t with
  | '-' :: rest => (digitsPrefix rest).map (fun n => -(Int.ofNat n))
  | '+' :: rest => (digitsPrefix rest).map Int.ofNat
  | _ => (digitsPrefix t).map Int.ofNat

/-! ## The collection crawler (`fetchAllPaperPages`) -/

/-- `Number.parseInt(lastUrl.searchParams.get('page') || '1')` applied to a
`last` link. -/
def lastPageNum (lastStr : String) : Option Int :=
  let g := getParam (parseUrl lastStr) "page"
  let s := match g with
    | none => "1"
    | some v => if v = "" then "1" else v
  parseIntJS s

/-- The page-`i` URL: substitute the `page` parameter on the seed URL. -/
def pageSub (startUrl : String) (i : Nat) : String :=
  urlToString (setParam (parseUrl startUrl) "page" (Nat.repr i))

/-- The page URL list built by the crawler: the seed first, then pages
`2..P` when the first page carried a `last` link whose `page` parameter
parsed to `P ≥ 2` (a NaN never enters the loop). -/
def crawlPageUrls (startUrl : String) (lastLink : Option String) : List String :=
  match lastLink with
  | none => [startUrl]
  | some lastStr =>
    match lastPageNum lastStr with
    | none => [startUrl]
    | some n =>
      if 2 ≤ n then
        startUrl :: (List.range' 2 (n.toNat - 1)).map (pageSub startUrl)
      else [startUrl]

/-- Success value of `fetchPaperPage`. -/
structure PaperPage where
  papers : List OParlPaper
  nextUrl : Option String

/-- `fetchPaperPage`: fetch one collection page and decode it. -/
def fetchPaperPage (w : ApiWorld) (url : String) : Except FetchErr PaperPage := do
  let j ← effectFetchJson w url
  let d ← decodePaperList j
  .ok ⟨d.data, d.links.bind (·.next)⟩

/-- `fetchAllPaperPages`: decode the first page, derive the page count from
its `last` link, fetch every page (the seed page again among them) and
concatenate the records in page order. -/
def fetchAllPaperPages (w : ApiWorld) (startUrl : String) :
    Except FetchErr (List OParlPaper) := do
  let firstJson ← effectFetchJson w startUrl
  let decoded ← decodePaperList firstJson
  let pageUrls := crawlPageUrls startUrl (decoded.links.bind (·.last))
  let results ← effectAll (fetchPaperPage w) pageUrls
  .ok (results.map (·.papers)).flatten

/-- Records of one page under a given world, for stating the crawl result. -/
def pageRecords (w : ApiWorld) (url : String) : List OParlPaper :=
  match fetchPaperPage w url with
  | .ok r => r.papers
  | .error _ => []

/-! ## Completion-order independence apparatus -/

/-- Reassemble task results delivered as (index, value) pairs in completion
order back into input order; `none` if some index never completed. -/
def reassemble {α : Type} (n : Nat) (pairs : List (Nat × α)) : Option (List α) :=
  optionAll (fun i => (pairs.find? (fun p => p.1 == i)).map (·.2)) (List.range n)

/-! ## Fixtures used by witnesses and counterexamples -/

/-- A scrape world where every download succeeds with body `"PDF"`, every
write succeeds, and no date string parses. -/
def wAllOk : ScrapeWorld :=
  ⟨fun _ => .resp 200 "OK" "PDF", fun _ => true, fun _ => none⟩

/-- A PDF file record with a name, no date and an access URL. -/
def fileA : OParlFile :=
  ⟨"https://api.example/file/1", some "a", some "application/pdf", none,
   some "https://api.example/file/1/download", none⟩

/-- A scraper configuration writing into `docs`. -/
def cfgDocs : ScraperConfig := ⟨"docs", none⟩

/-- Condition under which processing a file leaves the state unchanged and
downloads nothing: its marker exists, a gate rejects it, or its download
fails.  After a run in which every filesystem write succeeded, every file
satisfies this for the final metadata map. -/
def secondSkips (w : ScrapeWorld) (meta : MetaMap) (f : OParlFile) : Bool :=
  (lookupAssoc meta f.id).isSome || !mimeIsPdf f.mimeType ||
    (match urlOf f with
     | none => true
     | some u =>
       match downloadFile w u with
       | .error _ => true
       | .ok _ => false)

/-- A metadata entry for `fileA` as a first run would record it. -/
def entryA : MetaEntry :=
  ⟨fileA.id, "unknown/a.pdf", "https://api.example/file/1/download",
   some "application/pdf", some "a", none, "T0"⟩

/-- A state where `fileA` is already marked and its file is on disk. -/
def stMarked : ScrapeState :=
  ⟨[("docs/unknown/a.pdf", "OLD")], [(fileA.id, entryA)]⟩

/-- A world whose binary fetches all fail at the network level. -/
def wNetFail : ScrapeWorld :=
  ⟨fun _ => .netFail "ECONNREFUSED", fun _ => true, fun _ => none⟩

/-- A world whose binary fetches all answer 404. -/
def w404 : ScrapeWorld :=
  ⟨fun _ => .resp 404 "Not Found" "", fun _ => true, fun _ => none⟩

/-- A world where downloads succeed but every filesystem write fails. -/
def wNoSave : ScrapeWorld :=
  ⟨fun _ => .resp 200 "OK" "PDF", fun _ => false, fun _ => none⟩

/-- A PDF file record carrying no download location at all. -/
def fileNoUrl : OParlFile :=
  ⟨"https://api.example/file/2", some "b", some "application/pdf", none,
   none, none⟩

/-- A non-PDF file record with a URL. -/
def fileTxt : OParlFile :=
  ⟨"https://api.example/file/3", some "c", some "text/html", none,
   some "https://api.example/file/3/download", none⟩

/-- First collection page: one paper, with next and last links to page 2. -/
def paperBody1 : Json :=
  .obj [("data", .arr [.obj [("id", .str "p1")]]),
        ("links", .obj [("next", .str "http://x/p?page=2"),
                        ("last", .str "http://x/p?page=2")])]

/-- Second collection page: one paper, no links. -/
def paperBody2 : Json :=
  .obj [("data", .arr [.obj [("id", .str "p2")]])]

/-- A remote with a two-page paper collection seeded at `http://x/p`. -/
def apiTwoPages : ApiWorld :=
  ⟨fun u =>
    if u = "http://x/p" then .resp 200 "OK" (some paperBody1)
    else if u = "http://x/p?page=2" then .resp 200 "OK" (some paperBody2)
    else .netFail "down"⟩

/-- Same collection, but the second page is unreachable. -/
def apiPage2Down : ApiWorld :=
  ⟨fun u =>
    if u = "http://x/p" then .resp 200 "OK" (some paperBody1)
    else .netFail "down"⟩

/-- A file-list page whose `links.last` is `"A"`. -/
def fileBodyA : Json :=
  .obj [("data", .arr []),
        ("links", .obj [("next", .str "N"), ("last", .str "A")])]

/-- The same file-list page with `links.last` changed to `"B"`. -/
def fileBodyB : Json :=
  .obj [("data", .arr []),
        ("links", .obj [("next", .str "N"), ("last", .str "B")])]

/-- Remote serving `fileBodyA` everywhere. -/
def apiLastA : ApiWorld := ⟨fun _ => .resp 200 "OK" (some fileBodyA)⟩

/-- Remote serving `fileBodyB` everywhere. -/
def apiLastB : ApiWorld := ⟨fun _ => .resp 200 "OK" (some fileBodyB)⟩

/-- An entirely unreachable JSON API. -/
def apiDown : ApiWorld := ⟨fun _ => .netFail "ECONNREFUSED"⟩

/-- The decoded form of the paper on page 1. -/
def paper1 : OParlPaper := ⟨"p1", none, none, none, none, none, none, none, none⟩

/-- The decoded form of the paper on page 2. -/
def paper2 : OParlPaper := ⟨"p2", none, none, none, none, none, none, none, none⟩

/-- The decoded envelope of `paperBody1`. -/
def firstPageDecoded : PaperListResponse :=
  ⟨[paper1], some ⟨some "http://x/p?page=2", some "http://x/p?page=2"⟩⟩

/-! ## Association-list and counter lemmas -/

theorem lookup_cons_isSome {α : Type} (m : List (String × α)) (k k' : String)
    (v : α) (h : (lookupAssoc m k).isSome = true) :
    (lookupAssoc ((k', v) :: m) k).isSome = true := by
  simp only [lookupAssoc, List.find?] at h ⊢
  cases hkk : k' == k
  · simpa [hkk] using h
  · simp [hkk]

theorem lookup_cons_self {α : Type} (m : List (String × α)) (k : String)
    (v : α) : lookupAssoc ((k, v) :: m) k = some v := by
  simp [lookupAssoc, List.find?]

theorem lookup_cons_ne {α : Type} (m : List (String × α)) (k k' : String)
    (v : α) (h : k' ≠ k) : lookupAssoc ((k', v) :: m) k = lookupAssoc m k := by
  have hb : (k' == k) = false := by simpa using h
  simp [lookupAssoc, List.find?, hb]

theorem addCounts_zero (a : Counts) : addCounts a ⟨0, 0, 0⟩ = a := by
  cases a; simp [addCounts]

theorem countStep_split (acc : Counts) (r : FileResult) :
    countStep acc r = addCounts acc (countStep ⟨0, 0, 0⟩ r) := by
  cases acc; simp [countStep, addCounts]

theorem addCounts_assoc (a b c : Counts) :
    addCounts (addCounts a b) c = addCounts a (addCounts b c) := by
  cases a; cases b; cases c; simp [addCounts, Nat.add_assoc]

theorem countResults_foldl (rs : List FileResult) (acc : Counts) :
    rs.foldl countStep acc = addCounts acc (countResults rs) := by
  induction rs generalizing acc with
  | nil => simp [countResults, addCounts_zero]
  | cons r rs ih =>
    show rs.foldl countStep (countStep acc r) = _
    rw [ih, countStep_split]
    show _ = addCounts acc (rs.foldl countStep (countStep ⟨0, 0, 0⟩ r))
    rw [ih (countStep ⟨0, 0, 0⟩ r), addCounts_assoc]

theorem countResults_cons (r : FileResult) (rs : List FileResult) :
    countResults (r :: rs) = addCounts (countStep ⟨0, 0, 0⟩ r) (countResults rs) := by
  show rs.foldl countStep (countStep ⟨0, 0, 0⟩ r) = _
  rw [countResults_foldl]

theorem countResults_skipped_cons (r : FileResult) (rs : List FileResult) :
    (countResults (r :: rs)).skipped =
      (if r.skipped then 1 else 0) + (countResults rs).skipped := by
  rw [countResults_cons]; cases r; simp [countStep, addCounts]

theorem countResults_downloaded_zero (rs : List FileResult) :
    (countResults rs).downloaded = 0 ↔ ∀ r ∈ rs, r.downloaded = false := by
  induction rs with
  | nil => simp [countResults]
  | cons r rs ih =>
    rw [countResults_cons]
    cases hr : r.downloaded <;>
      simp [countStep, addCounts, hr, ih, Nat.add_comm]

/-! ## Case analysis of `processFile` -/

theorem processFile_marked (w : ScrapeWorld) (cfg : ScraperConfig) (now : String)
    (f : OParlFile) (st : ScrapeState)
    (h : (lookupAssoc st.meta f.id).isSome = true) :
    processFile w cfg now f st = (skipResult, st, []) := by
  simp [processFile, h]

theorem processFile_mimeGate (w : ScrapeWorld) (cfg : ScraperConfig) (now : String)
    (f : OParlFile) (st : ScrapeState)
    (h1 : (lookupAssoc st.meta f.id).isSome = false)
    (h2 : mimeIsPdf f.mimeType = false) :
    processFile w cfg now f st = (skipResult, st, []) := by
  simp [processFile, h1, h2]

theorem processFile_urlGate (w : ScrapeWorld) (cfg : ScraperConfig) (now : String)
    (f : OParlFile) (st : ScrapeState)
    (h1 : (lookupAssoc st.meta f.id).isSome = false)
    (h2 : mimeIsPdf f.mimeType = true)
    (h3 : urlOf f = none) :
    processFile w cfg now f st = (skipResult, st, []) := by
  simp [processFile, h1, h2, h3]

theorem processFile_dlErr (w : ScrapeWorld) (cfg : ScraperConfig) (now : String)
    (f : OParlFile) (st : ScrapeState) (u : String) (e : FetchErr)
    (h1 : (lookupAssoc st.meta f.id).isSome = false)
    (h2 : mimeIsPdf f.mimeType = true)
    (h3 : urlOf f = some u)
    (h4 : downloadFile w u = .error e) :
    processFile w cfg now f st = (errorResult, st, [u]) := by
  simp [processFile, h1, h2, h3, h4]

theorem processFile_saveErr (w : ScrapeWorld) (cfg : ScraperConfig) (now : String)
    (f : OParlFile) (st : ScrapeState) (u : String) (b : String)
    (h1 : (lookupAssoc st.meta f.id).isSome = false)
    (h2 : mimeIsPdf f.mimeType = true)
    (h3 : urlOf f = some u)
    (h4 : downloadFile w u = .ok b)
    (h5 : w.saveOk (pathJoin cfg.documentsDir
            (relativePathFor w.jsDate cfg.documentsDir st.fs f)) = false) :
    processFile w cfg now f st = (errorResult, st, [u]) := by
  simp [processFile, h1, h2, h3, h4, h5]

theorem processFile_success (w : ScrapeWorld) (cfg : ScraperConfig) (now : String)
    (f : OParlFile) (st : ScrapeState) (u : String) (b : String)
    (h1 : (lookupAssoc st.meta f.id).isSome = false)
    (h2 : mimeIsPdf f.mimeType = true)
    (h3 : urlOf f = some u)
    (h4 : downloadFile w u = .ok b)
    (h5 : w.saveOk (pathJoin cfg.documentsDir
            (relativePathFor w.jsDate cfg.documentsDir st.fs f)) = true) :
    processFile w cfg now f st =
      (downloadedResult,
       ⟨(pathJoin cfg.documentsDir
           (relativePathFor w.jsDate cfg.documentsDir st.fs f), b) :: st.fs,
        (f.id, mkMetaEntry f u
           (relativePathFor w.jsDate cfg.documentsDir st.fs f) now) :: st.meta⟩,
       [u]) := by
  simp [processFile, h1, h2, h3, h4, h5]

/-- Exhaustive description of `processFile`, remembering which branch fired. -/
theorem processFile_cases (w : ScrapeWorld) (cfg : ScraperConfig) (now : String)
    (f : OParlFile) (st : ScrapeState) :
    ((lookupAssoc st.meta f.id).isSome = true ∧
      processFile w cfg now f st = (skipResult, st, [])) ∨
    ((lookupAssoc st.meta f.id).isSome = false ∧ mimeIsPdf f.mimeType = false ∧
      processFile w cfg now f st = (skipResult, st, [])) ∨
    ((lookupAssoc st.meta f.id).isSome = false ∧ mimeIsPdf f.mimeType = true ∧
      urlOf f = none ∧ processFile w cfg now f st = (skipResult, st, [])) ∨
    (∃ u e, (lookupAssoc st.meta f.id).isSome = false ∧
      mimeIsPdf f.mimeType = true ∧ urlOf f = some u ∧
      downloadFile w u = .error e ∧
      processFile w cfg now f st = (errorResult, st, [u])) ∨
    (∃ u b, (lookupAssoc st.meta f.id).isSome = false ∧
      mimeIsPdf f.mimeType = true ∧ urlOf f = some u ∧
      downloadFile w u = .ok b ∧
      w.saveOk (pathJoin cfg.documentsDir
        (relativePathFor w.jsDate cfg.documentsDir st.fs f)) = false ∧
      processFile w cfg now f st = (errorResult, st, [u])) ∨
    (∃ u b, (lookupAssoc st.meta f.id).isSome = false ∧
      mimeIsPdf f.mimeType = true ∧ urlOf f = some u ∧
      downloadFile w u = .ok b ∧
      w.saveOk (pathJoin cfg.documentsDir
        (relativePathFor w.jsDate cfg.documentsDir st.fs f)) = true ∧
      processFile w cfg now f st =
        (downloadedResult,
         ⟨(pathJoin cfg.documentsDir
             (relativePathFor w.jsDate cfg.documentsDir st.fs f), b) :: st.fs,
          (f.id, mkMetaEntry f u
             (relativePathFor w.jsDate cfg.documentsDir st.fs f) now) :: st.meta⟩,
         [u])) := by
  cases h1 : (lookupAssoc st.meta f.id).isSome with
  | true => exact Or.inl ⟨rfl, processFile_marked w cfg now f st h1⟩
  | false =>
    cases h2 : mimeIsPdf f.mimeType with
    | false =>
      exact Or.inr (Or.inl ⟨rfl, rfl, processFile_mimeGate w cfg now f st h1 h2⟩)
    | true =>
      cases h3 : urlOf f with
      | none =>
        exact Or.inr (Or.inr (Or.inl
          ⟨rfl, rfl, rfl, processFile_urlGate w cfg now f st h1 h2 h3⟩))
      | some u =>
        cases h4 : downloadFile w u with
        | error e =>
          exact Or.inr (Or.inr (Or.inr (Or.inl
            ⟨u, e, rfl, rfl, rfl, h4, processFile_dlErr w cfg now f st u e h1 h2 h3 h4⟩)))
        | ok b =>
          cases h5 : w.saveOk (pathJoin cfg.documentsDir
              (relativePathFor w.jsDate cfg.documentsDir st.fs f)) with
          | false =>
            exact Or.inr (Or.inr (Or.inr (Or.inr (Or.inl
              ⟨u, b, rfl, rfl, rfl, h4, rfl,
               processFile_saveErr w cfg now f st u b h1 h2 h3 h4 h5⟩))))
          | true =>
            exact Or.inr (Or.inr (Or.inr (Or.inr (Or.inr
              ⟨u, b, rfl, rfl, rfl, h4, rfl,
               processFile_success w cfg now f st u b h1 h2 h3 h4 h5⟩))))

/-- Every branch of `processFile` performs at most one download. -/
theorem processFile_downloads_le_one (w : ScrapeWorld) (cfg : ScraperConfig)
    (now : String) (f : OParlFile) (st : ScrapeState) :
    (processFile w cfg now f st).2.2.length ≤ 1 := by
  rcases processFile_cases w cfg now f st with
    ⟨_, he⟩ | ⟨_, _, he⟩ | ⟨_, _, _, he⟩ | ⟨u, e, _, _, _, _, he⟩ |
    ⟨u, b, _, _, _, _, _, he⟩ | ⟨u, b, _, _, _, _, _, he⟩ <;> simp [he]

/-- A file whose result is not a download leaves the whole state unchanged. -/
theorem processFile_not_downloaded_state (w : ScrapeWorld) (cfg : ScraperConfig)
    (now : String) (f : OParlFile) (st : ScrapeState)
    (h : (processFile w cfg now f st).1.downloaded = false) :
    (processFile w cfg now f st).2.1 = st := by
  rcases processFile_cases w cfg now f st with
    ⟨_, he⟩ | ⟨_, _, he⟩ | ⟨_, _, _, he⟩ | ⟨u, e, _, _, _, _, he⟩ |
    ⟨u, b, _, _, _, _, _, he⟩ | ⟨u, b, _, _, _, _, _, he⟩
  · rw [he]
  · rw [he]
  · rw [he]
  · rw [he]
  · rw [he]
  · rw [he] at h; simp [downloadedResult] at h

/-- Marker membership in the metadata map survives `processFile`. -/
theorem processFile_meta_mono (w : ScrapeWorld) (cfg : ScraperConfig)
    (now : String) (f : OParlFile) (st : ScrapeState) (k : String)
    (h : (lookupAssoc st.meta k).isSome = true) :
    (lookupAssoc ((processFile w cfg now f st).2.1).meta k).isSome = true := by
  rcases processFile_cases w cfg now f st with
    ⟨_, he⟩ | ⟨_, _, he⟩ | ⟨_, _, _, he⟩ | ⟨u, e, _, _, _, _, he⟩ |
    ⟨u, b, _, _, _, _, _, he⟩ | ⟨u, b, _, _, _, _, _, he⟩
  · rw [he]; exact h
  · rw [he]; exact h
  · rw [he]; exact h
  · rw [he]; exact h
  · rw [he]; exact h
  · rw [he]; exact lookup_cons_isSome _ _ _ _ h

/-- When `secondSkips` holds for the current metadata, `processFile` keeps the
state and reports nothing downloaded. -/
theorem processFile_stable (w : ScrapeWorld) (cfg : ScraperConfig)
    (now : String) (f : OParlFile) (st : ScrapeState)
    (h : secondSkips w st.meta f = true) :
    (processFile w cfg now f st).2.1 = st ∧
    (processFile w cfg now f st).1.downloaded = false := by
  rcases processFile_cases w cfg now f st with
    ⟨_, he⟩ | ⟨_, _, he⟩ | ⟨_, _, _, he⟩ | ⟨u, e, _, _, _, _, he⟩ |
    ⟨u, b, _, _, _, _, _, he⟩ | ⟨u, b, h1, h2, h3, h4, _, he⟩
  · rw [he]; exact ⟨rfl, rfl⟩
  · rw [he]; exact ⟨rfl, rfl⟩
  · rw [he]; exact ⟨rfl, rfl⟩
  · rw [he]; exact ⟨rfl, rfl⟩
  · rw [he]; exact ⟨rfl, rfl⟩
  · simp [secondSkips, h1, h2, h3, h4] at h

/-- After `processFile` with all-succeeding writes, the processed file
satisfies `secondSkips` for the resulting metadata. -/
theorem processFile_establishes (w : ScrapeWorld) (cfg : ScraperConfig)
    (now : String) (f : OParlFile) (st : ScrapeState)
    (hsave : ∀ p, w.saveOk p = true) :
    secondSkips w ((processFile w cfg now f st).2.1).meta f = true := by
  rcases processFile_cases w cfg now f st with
    ⟨h1, he⟩ | ⟨h1, h2, he⟩ | ⟨h1, h2, h3, he⟩ | ⟨u, e, h1, h2, h3, h4, he⟩ |
    ⟨u, b, h1, h2, h3, h4, h5, he⟩ | ⟨u, b, h1, h2, h3, h4, h5, he⟩
  · rw [he]; simp [secondSkips, h1]
  · rw [he]; simp [secondSkips, h2]
  · rw [he]; simp [secondSkips, h3]
  · rw [he]; simp [secondSkips, h3, h4]
  · rw [hsave] at h5; exact absurd h5 (by simp)
  · rw [he]; simp [secondSkips, lookup_cons_self]

/-- `secondSkips` is monotone under growth of the metadata map. -/
theorem secondSkips_mono (w : ScrapeWorld) (m m' : MetaMap) (f : OParlFile)
    (h : secondSkips w m f = true)
    (hm : (lookupAssoc m f.id).isSome = true → (lookupAssoc m' f.id).isSome = true) :
    secondSkips w m' f = true := by
  simp only [secondSkips, Bool.or_eq_true] at h ⊢
  rcases h with (h | h) | h
  · exact Or.inl (Or.inl (hm h))
  · exact Or.inl (Or.inr h)
  · exact Or.inr h

/-! ## Lemmas about the processing loop -/

theorem runFold_length (w : ScrapeWorld) (cfg : ScraperConfig) (now : String)
    (files : List OParlFile) (st : ScrapeState) :
    ((runFold w cfg now files st).2).length = files.length := by
  induction files generalizing st with
  | nil => rfl
  | cons f rest ih => simp [runFold, ih]

theorem runFold_meta_mono (w : ScrapeWorld) (cfg : ScraperConfig) (now : String)
    (files : List OParlFile) (st : ScrapeState) (k : String)
    (h : (lookupAssoc st.meta k).isSome = true) :
    (lookupAssoc ((runFold w cfg now files st).1).meta k).isSome = true := by
  induction files generalizing st with
  | nil => exact h
  | cons f rest ih =>
    exact ih (processFile w cfg now f st).2.1
      (processFile_meta_mono w cfg now f st k h)

/-- After any run with all-succeeding writes, `secondSkips` holds for every
processed file against the final metadata. -/
theorem runFold_secondSkips (w : ScrapeWorld) (cfg : ScraperConfig) (now : String)
    (hsave : ∀ p, w.saveOk p = true) :
    ∀ (files : List OParlFile) (st : ScrapeState), ∀ f ∈ files,
      secondSkips w ((runFold w cfg now files st).1).meta f = true := by
  intro files
  induction files with
  | nil => intro st f hf; cases hf
  | cons g rest ih =>
    intro st f hf
    rcases List.mem_cons.mp hf with hg | hrest
    · subst hg
      have h1 := processFile_establishes w cfg now f st hsave
      refine secondSkips_mono w _ _ f h1 (fun hm => ?_)
      exact runFold_meta_mono w cfg now rest _ f.id hm
    · exact ih (processFile w cfg now g st).2.1 f hrest

/-- A run in which nothing is downloaded leaves the state untouched. -/
theorem runFold_no_download (w : ScrapeWorld) (cfg : ScraperConfig) (now : String)
    (files : List OParlFile) (st : ScrapeState)
    (h : ∀ x ∈ (runFold w cfg now files st).2, x.1.downloaded = false) :
    (runFold w cfg now files st).1 = st := by
  induction files generalizing st with
  | nil => rfl
  | cons f rest ih =>
    have hx : (processFile w cfg now f st).1.downloaded = false := by
      have := h ((processFile w cfg now f st).1, (processFile w cfg now f st).2.2)
        (by simp [runFold])
      exact this
    have hst : (processFile w cfg now f st).2.1 = st :=
      processFile_not_downloaded_state w cfg now f st hx
    have hrest : ∀ x ∈ (runFold w cfg now rest (processFile w cfg now f st).2.1).2,
        x.1.downloaded = false := by
      intro x hxm
      exact h x (by simp [runFold]; exact Or.inr hxm)
    calc (runFold w cfg now (f :: rest) st).1
        = (runFold w cfg now rest (processFile w cfg now f st).2.1).1 := rfl
      _ = (processFile w cfg now f st).2.1 := ih _ hrest
      _ = st := hst

/-- When every file satisfies `secondSkips` for the starting metadata, the
run is a no-op: the state is returned unchanged and each file's entry is just
`processFile` evaluated at the fixed starting state. -/
theorem runFold_stable (w : ScrapeWorld) (cfg : ScraperConfig) (now : String)
    (files : List OParlFile) (st : ScrapeState)
    (h : ∀ f ∈ files, secondSkips w st.meta f = true) :
    runFold w cfg now files st =
      (st, files.map (fun f =>
        ((processFile w cfg now f st).1, (processFile w cfg now f st).2.2))) := by
  induction files with
  | nil => rfl
  | cons f rest ih =>
    have hst : (processFile w cfg now f st).2.1 = st :=
      (processFile_stable w cfg now f st (h f (List.mem_cons_self f rest))).1
    have hrest := ih (fun g hg => h g (List.mem_cons_of_mem f hg))
    show ((runFold w cfg now rest (processFile w cfg now f st).2.1).1,
      ((processFile w cfg now f st).1, (processFile w cfg now f st).2.2) ::
        (runFold w cfg now rest (processFile w cfg now f st).2.1).2) = _
    rw [hst, hrest]
    simp

/-! ## Claim theorems: scraper side -/

/-- C6: if a file's completion-marker entry exists in the metadata map,
`processFile` returns the skipped result, the state is unchanged (no
filesystem write), no URL is fetched, and the result bumps exactly the shared
skipped counter — all irrespective of which files are on disk and of the
download world, since the conclusion holds for every `st.fs` and `w`. -/
theorem c6_marker_short_circuits (w : ScrapeWorld) (cfg : ScraperConfig)
    (now : String) (f : OParlFile) (st : ScrapeState) (rs : List FileResult)
    (h : (lookupAssoc st.meta f.id).isSome = true) :
    processFile w cfg now f st = (skipResult, st, []) ∧
    (countResults (skipResult :: rs)).skipped = (countResults rs).skipped + 1 := by
  refine ⟨processFile_marked w cfg now f st h, ?_⟩
  rw [countResults_skipped_cons]
  simp [skipResult, Nat.add_comm]

/-- Witness for C6 at a marked file over a non-trivial disk state. -/
theorem c6_marker_short_circuits_witness :
    (lookupAssoc stMarked.meta fileA.id).isSome = true ∧
    (processFile wAllOk cfgDocs "NOW" fileA stMarked = (skipResult, stMarked, []) ∧
     (countResults (skipResult :: [errorResult])).skipped =
       (countResults [errorResult]).skipped + 1) :=
  ⟨by decide,
   c6_marker_short_circuits wAllOk cfgDocs "NOW" fileA stMarked [errorResult] (by decide)⟩

/-- C10: a file whose mime type is absent or does not contain "pdf"
(case-insensitively), or which offers neither an access nor a download URL,
is answered with the same skipped result — state unchanged, nothing fetched —
and it feeds the same skipped counter as an already-harvested file. -/
theorem c10_mime_and_url_gate (w : ScrapeWorld) (cfg : ScraperConfig)
    (now : String) (f : OParlFile) (st : ScrapeState) (rs : List FileResult)
    (h : mimeIsPdf f.mimeType = false ∨ urlOf f = none) :
    processFile w cfg now f st = (skipResult, st, []) ∧
    (countResults (skipResult :: rs)).skipped = (countResults rs).skipped + 1 := by
  constructor
  · cases h1 : (lookupAssoc st.meta f.id).isSome with
    | true => exact processFile_marked w cfg now f st h1
    | false =>
      rcases h with hm | hu
      · exact processFile_mimeGate w cfg now f st h1 hm
      · cases h2 : mimeIsPdf f.mimeType with
        | false => exact processFile_mimeGate w cfg now f st h1 h2
        | true => exact processFile_urlGate w cfg now f st h1 h2 hu
  · rw [countResults_skipped_cons]
    simp [skipResult, Nat.add_comm]

/-- Witness for C10 at a non-PDF record with a URL. -/
theorem c10_mime_and_url_gate_witness :
    (mimeIsPdf fileTxt.mimeType = false ∨ urlOf fileTxt = none) ∧
    (processFile wAllOk cfgDocs "NOW" fileTxt ⟨[], []⟩ = (skipResult, ⟨[], []⟩, []) ∧
     (countResults (skipResult :: [skipResult])).skipped =
       (countResults [skipResult]).skipped + 1) :=
  ⟨Or.inl (by decide),
   c10_mime_and_url_gate wAllOk cfgDocs "NOW" fileTxt ⟨[], []⟩ [skipResult]
     (Or.inl (by decide))⟩

/-- C7 counterexample: the very same record yields different relative paths
depending on what is already on disk (the collision loop appends `_1`), so
the derived local path is not a function of record content alone. -/
theorem c7_path_depends_on_run_state :
    relativePathFor (fun _ => none) "docs" [] fileA ≠
      relativePathFor (fun _ => none) "docs" [("docs/unknown/a.pdf", "OLD")] fileA := by
  decide

/-- C7 amended: the year folder and base filename from `generateFilePath`
depend only on the record's date, name and id (two records agreeing there get
the same base path in any two runs); only the collision suffix added by
`findUniqueFilename` depends on the run's disk state. -/
theorem c7_generateFilePath_content_determined
    (jsDate : String → Option DateParts) (f g : OParlFile)
    (h1 : f.date = g.date) (h2 : f.name = g.name) (h3 : f.id = g.id) :
    generateFilePath jsDate f = generateFilePath jsDate g := by
  unfold generateFilePath
  rw [h1, h2, h3]

/-- Witness for the amended C7: two records differing only in mime type and
URLs produce identical base paths. -/
theorem c7_generateFilePath_content_determined_witness :
    fileA.date = (⟨fileA.id, some "a", none, none, none, some "alt"⟩ : OParlFile).date ∧
    fileA.name = (⟨fileA.id, some "a", none, none, none, some "alt"⟩ : OParlFile).name ∧
    fileA.id = (⟨fileA.id, some "a", none, none, none, some "alt"⟩ : OParlFile).id ∧
    generateFilePath (fun _ => none) fileA =
      generateFilePath (fun _ => none) (⟨fileA.id, some "a", none, none, none, some "alt"⟩ : OParlFile) :=
  ⟨rfl, rfl, rfl,
   c7_generateFilePath_content_determined (fun _ => none) fileA
     (⟨fileA.id, some "a", none, none, none, some "alt"⟩ : OParlFile) rfl rfl rfl⟩

/-- C8 counterexample: with the base target path occupied and no marker, a
successful download does not overwrite it — the old bytes stay at the base
path, the new bytes land under a `_1` suffix, and two files remain. -/
theorem c8_no_overwrite_counterexample :
    baseTargetPath wAllOk.jsDate cfgDocs.documentsDir fileA = "docs/unknown/a.pdf" ∧
    (processFile wAllOk cfgDocs "NOW" fileA ⟨[("docs/unknown/a.pdf", "OLD")], []⟩).2.1.fs ≠
      [("docs/unknown/a.pdf", "PDF")] ∧
    lookupAssoc (processFile wAllOk cfgDocs "NOW" fileA
      ⟨[("docs/unknown/a.pdf", "OLD")], []⟩).2.1.fs "docs/unknown/a.pdf" = some "OLD" ∧
    lookupAssoc (processFile wAllOk cfgDocs "NOW" fileA
      ⟨[("docs/unknown/a.pdf", "OLD")], []⟩).2.1.fs "docs/unknown/a_1.pdf" = some "PDF" := by
  refine ⟨by decide, by decide, by decide, by decide⟩

/-- C8 amended: when the base target path already holds a file and the entity
is unmarked, a successful download is written to a fresh suffixed path — the
previously existing file is untouched and both files exist afterwards. -/
theorem c8_download_writes_fresh_path (w : ScrapeWorld) (cfg : ScraperConfig)
    (now : String) (f : OParlFile) (st : ScrapeState) (u b : String)
    (h1 : (lookupAssoc st.meta f.id).isSome = false)
    (h2 : mimeIsPdf f.mimeType = true)
    (h3 : urlOf f = some u)
    (h4 : downloadFile w u = .ok b)
    (h5 : w.saveOk (pathJoin cfg.documentsDir
            (relativePathFor w.jsDate cfg.documentsDir st.fs f)) = true)
    (h6 : lookupAssoc st.fs (pathJoin cfg.documentsDir
            (relativePathFor w.jsDate cfg.documentsDir st.fs f)) = none)
    (h7 : (lookupAssoc st.fs (baseTargetPath w.jsDate cfg.documentsDir f)).isSome = true) :
    processFile w cfg now f st =
      (downloadedResult,
       ⟨(pathJoin cfg.documentsDir
           (relativePathFor w.jsDate cfg.documentsDir st.fs f), b) :: st.fs,
        (f.id, mkMetaEntry f u
           (relativePathFor w.jsDate cfg.documentsDir st.fs f) now) :: st.meta⟩,
       [u]) ∧
    pathJoin cfg.documentsDir (relativePathFor w.jsDate cfg.documentsDir st.fs f) ≠
      baseTargetPath w.jsDate cfg.documentsDir f ∧
    lookupAssoc ((pathJoin cfg.documentsDir
        (relativePathFor w.jsDate cfg.documentsDir st.fs f), b) :: st.fs)
      (baseTargetPath w.jsDate cfg.documentsDir f) =
      lookupAssoc st.fs (baseTargetPath w.jsDate cfg.documentsDir f) ∧
    lookupAssoc ((pathJoin cfg.documentsDir
        (relativePathFor w.jsDate cfg.documentsDir st.fs f), b) :: st.fs)
      (pathJoin cfg.documentsDir (relativePathFor w.jsDate cfg.documentsDir st.fs f)) =
      some b := by
  have hne : pathJoin cfg.documentsDir (relativePathFor w.jsDate cfg.documentsDir st.fs f) ≠
      baseTargetPath w.jsDate cfg.documentsDir f := by
    intro hEq
    rw [hEq] at h6
    rw [h6] at h7
    simp at h7
  refine ⟨processFile_success w cfg now f st u b h1 h2 h3 h4 h5, hne, ?_, ?_⟩
  · exact lookup_cons_ne st.fs _ _ b hne
  · exact lookup_cons_self st.fs _ b

/-- Witness for the amended C8 in the counterexample scenario. -/
theorem c8_download_writes_fresh_path_witness :
    ((lookupAssoc (⟨[("docs/unknown/a.pdf", "OLD")], []⟩ : ScrapeState).meta fileA.id).isSome = false ∧
     mimeIsPdf fileA.mimeType = true ∧
     urlOf fileA = some "https://api.example/file/1/download" ∧
     downloadFile wAllOk "https://api.example/file/1/download" = .ok "PDF" ∧
     wAllOk.saveOk (pathJoin cfgDocs.documentsDir
       (relativePathFor wAllOk.jsDate cfgDocs.documentsDir
         [("docs/unknown/a.pdf", "OLD")] fileA)) = true ∧
     lookupAssoc [("docs/unknown/a.pdf", "OLD")] (pathJoin cfgDocs.documentsDir
       (relativePathFor wAllOk.jsDate cfgDocs.documentsDir
         [("docs/unknown/a.pdf", "OLD")] fileA)) = none ∧
     (lookupAssoc [("docs/unknown/a.pdf", "OLD")]
       (baseTargetPath wAllOk.jsDate cfgDocs.documentsDir fileA)).isSome = true) ∧
    (pathJoin cfgDocs.documentsDir
        (relativePathFor wAllOk.jsDate cfgDocs.documentsDir
          [("docs/unknown/a.pdf", "OLD")] fileA) ≠
      baseTargetPath wAllOk.jsDate cfgDocs.documentsDir fileA) :=
  ⟨⟨by decide, by decide, by decide, rfl, rfl, by decide, by decide⟩,
   (c8_download_writes_fresh_path wAllOk cfgDocs "NOW" fileA
     ⟨[("docs/unknown/a.pdf", "OLD")], []⟩ "https://api.example/file/1/download" "PDF"
     (by decide) (by decide) (by decide) rfl rfl (by decide) (by decide)).2.1⟩

/-- C9 counterexample: the entity-processing fan-out constant of `runScraper`
is not 5. -/
theorem c9_concurrency_not_five : runScraperConcurrency ≠ 5 := by decide

/-- C9 amended: processing fan-out in `runScraper` is a fixed bound of 64
file tasks (each performing at most one download), and collection page
fetches use a fixed bound of 32 — never unlimited concurrency. -/
theorem c9_bounded_concurrency :
    runScraperConcurrency = 64 ∧ pageFetchConcurrency = 32 ∧
    ∀ (w : ScrapeWorld) (cfg : ScraperConfig) (now : String) (f : OParlFile)
      (st : ScrapeState), (processFile w cfg now f st).2.2.length ≤ 1 :=
  ⟨rfl, rfl, fun w cfg now f st => processFile_downloads_le_one w cfg now f st⟩

/-- C5: every failure mode of a download task is converted into the error
result with the state unchanged — network failure, non-2xx response and write
failure alike — `processFile` being a total function models the `never` error
channel of the source; the loop still yields one result per file, and the
final metadata write happens whenever any download succeeded, regardless of
other failures. -/
theorem c5_download_failures_contained (w : ScrapeWorld) (cfg : ScraperConfig)
    (now : String) :
    (∀ (f : OParlFile) (st : ScrapeState) (u m : String),
      (lookupAssoc st.meta f.id).isSome = false → mimeIsPdf f.mimeType = true →
      urlOf f = some u → w.bin u = BinOutcome.netFail m →
      processFile w cfg now f st = (errorResult, st, [u])) ∧
    (∀ (f : OParlFile) (st : ScrapeState) (u : String) (s : Nat) (t b : String),
      (lookupAssoc st.meta f.id).isSome = false → mimeIsPdf f.mimeType = true →
      urlOf f = some u → w.bin u = BinOutcome.resp s t b → respOk s = false →
      processFile w cfg now f st = (errorResult, st, [u])) ∧
    (∀ (f : OParlFile) (st : ScrapeState) (u b : String),
      (lookupAssoc st.meta f.id).isSome = false → mimeIsPdf f.mimeType = true →
      urlOf f = some u → downloadFile w u = .ok b →
      w.saveOk (pathJoin cfg.documentsDir
        (relativePathFor w.jsDate cfg.documentsDir st.fs f)) = false →
      processFile w cfg now f st = (errorResult, st, [u])) ∧
    (∀ (f : OParlFile) (st : ScrapeState),
      (processFile w cfg now f st).1.error = true →
      (processFile w cfg now f st).2.1 = st) ∧
    (∀ (files : List OParlFile) (st : ScrapeState),
      ((runFold w cfg now files st).2).length = files.length) ∧
    (∀ (files : List OParlFile) (disk0 : Option MetaMap) (fs0 : FsMap),
      0 < (runScraperModel w cfg now files disk0 fs0).counts.downloaded →
      (runScraperModel w cfg now files disk0 fs0).diskMeta =
        some (runScraperModel w cfg now files disk0 fs0).metaEnd) := by
  refine ⟨?_, ?_, ?_, ?_, ?_, ?_⟩
  · intro f st u m h1 h2 h3 hbin
    have h4 : downloadFile w u = .error (.transport m) := by
      simp [downloadFile, hbin]
    exact processFile_dlErr w cfg now f st u _ h1 h2 h3 h4
  · intro f st u s t b h1 h2 h3 hbin hok
    have h4 : downloadFile w u = .error (.httpStatus s t) := by
      simp [downloadFile, hbin, hok]
    exact processFile_dlErr w cfg now f st u _ h1 h2 h3 h4
  · intro f st u b h1 h2 h3 h4 h5
    exact processFile_saveErr w cfg now f st u b h1 h2 h3 h4 h5
  · intro f st herr
    rcases processFile_cases w cfg now f st with
      ⟨_, he⟩ | ⟨_, _, he⟩ | ⟨_, _, _, he⟩ | ⟨u, e, _, _, _, _, he⟩ |
      ⟨u, b, _, _, _, _, _, he⟩ | ⟨u, b, _, _, _, _, _, he⟩
    · rw [he] at herr; simp [skipResult] at herr
    · rw [he] at herr; simp [skipResult] at herr
    · rw [he] at herr; simp [skipResult] at herr
    · rw [he]
    · rw [he]
    · rw [he] at herr; simp [downloadedResult] at herr
  · intro files st
    exact runFold_length w cfg now files st
  · intro files disk0 fs0 h
    simp only [runScraperModel] at h ⊢
    rw [if_pos h]

/-! ## Claim C1: idempotence of the harvest -/

/-- After a run with all-succeeding writes, every processed file satisfies
`secondSkips` for the metadata a following run will load from disk. -/
theorem run_diskMeta_secondSkips (w : ScrapeWorld) (cfg : ScraperConfig)
    (now : String) (files : List OParlFile) (disk0 : Option MetaMap)
    (fs0 : FsMap) (hsave : ∀ p, w.saveOk p = true) :
    ∀ f ∈ files,
      secondSkips w ((runScraperModel w cfg now files disk0 fs0).diskMeta.getD []) f = true := by
  intro f hf
  by_cases hdl :
      0 < (countResults ((runFold w cfg now files ⟨fs0, disk0.getD []⟩).2.map (·.1))).downloaded
  · have hdisk : (runScraperModel w cfg now files disk0 fs0).diskMeta =
        some (runFold w cfg now files ⟨fs0, disk0.getD []⟩).1.meta := by
      simp only [runScraperModel]
      rw [if_pos hdl]
    rw [hdisk]
    exact runFold_secondSkips w cfg now hsave files _ f hf
  · have h0 : (countResults ((runFold w cfg now files ⟨fs0, disk0.getD []⟩).2.map (·.1))).downloaded = 0 := by
      omega
    have hall : ∀ x ∈ (runFold w cfg now files ⟨fs0, disk0.getD []⟩).2,
        x.1.downloaded = false := by
      intro x hx
      exact (countResults_downloaded_zero _).mp h0 x.1 (List.mem_map_of_mem _ hx)
    have hstate := runFold_no_download w cfg now files ⟨fs0, disk0.getD []⟩ hall
    have hdisk : (runScraperModel w cfg now files disk0 fs0).diskMeta = disk0 := by
      simp only [runScraperModel]
      rw [if_neg hdl]
    rw [hdisk]
    have hsk := runFold_secondSkips w cfg now hsave files ⟨fs0, disk0.getD []⟩ f hf
    rw [hstate] at hsk
    exact hsk

/-- C1: against an unchanged remote (the worlds are functions of the URL) and
with all filesystem writes succeeding, a second harvest run leaves the
directory and the on-disk metadata exactly as the first run left them, its
downloaded count is 0, and every file whose completion-marker entry the first
run recorded is answered by the pure skip result with no URL fetched. -/
theorem c1_harvest_idempotent (w : ScrapeWorld) (cfg : ScraperConfig)
    (now1 now2 : String) (files : List OParlFile) (disk0 : Option MetaMap)
    (fs0 : FsMap) (hsave : ∀ p, w.saveOk p = true) :
    (runScraperModel w cfg now2 files
        (runScraperModel w cfg now1 files disk0 fs0).diskMeta
        (runScraperModel w cfg now1 files disk0 fs0).fs).fs =
      (runScraperModel w cfg now1 files disk0 fs0).fs ∧
    (runScraperModel w cfg now2 files
        (runScraperModel w cfg now1 files disk0 fs0).diskMeta
        (runScraperModel w cfg now1 files disk0 fs0).fs).diskMeta =
      (runScraperModel w cfg now1 files disk0 fs0).diskMeta ∧
    (runScraperModel w cfg now2 files
        (runScraperModel w cfg now1 files disk0 fs0).diskMeta
        (runScraperModel w cfg now1 files disk0 fs0).fs).counts.downloaded = 0 ∧
    ∀ (i : Nat) (f : OParlFile), files.get? i = some f →
      (lookupAssoc ((runScraperModel w cfg now1 files disk0 fs0).diskMeta.getD []) f.id).isSome = true →
      (runScraperModel w cfg now2 files
          (runScraperModel w cfg now1 files disk0 fs0).diskMeta
          (runScraperModel w cfg now1 files disk0 fs0).fs).perFile.get? i =
        some (skipResult, []) := by
  have hsk := run_diskMeta_secondSkips w cfg now1 files disk0 fs0 hsave
  have hsk2 : ∀ f ∈ files,
      secondSkips w
        (⟨(runScraperModel w cfg now1 files disk0 fs0).fs,
          (runScraperModel w cfg now1 files disk0 fs0).diskMeta.getD []⟩ : ScrapeState).meta f = true :=
    fun f hf => hsk f hf
  have hfold := runFold_stable w cfg now2 files
    ⟨(runScraperModel w cfg now1 files disk0 fs0).fs,
     (runScraperModel w cfg now1 files disk0 fs0).diskMeta.getD []⟩ hsk2
  have hdl0 : (countResults
      ((runFold w cfg now2 files
        ⟨(runScraperModel w cfg now1 files disk0 fs0).fs,
         (runScraperModel w cfg now1 files disk0 fs0).diskMeta.getD []⟩).2.map (·.1))).downloaded = 0 := by
    apply (countResults_downloaded_zero _).mpr
    intro r hr
    rw [hfold] at hr
    simp only [List.map_map, List.mem_map] at hr
    obtain ⟨f, hf, rfl⟩ := hr
    exact (processFile_stable w cfg now2 f _ (hsk2 f hf)).2
  refine ⟨?_, ?_, ?_, ?_⟩
  · show (runFold w cfg now2 files _).1.fs = _
    rw [hfold]
  · show (if 0 < (countResults ((runFold w cfg now2 files _).2.map (·.1))).downloaded
        then some (runFold w cfg now2 files _).1.meta
        else (runScraperModel w cfg now1 files disk0 fs0).diskMeta) = _
    rw [if_neg (by rw [hdl0]; omega)]
  · show (countResults ((runFold w cfg now2 files _).2.map (·.1))).downloaded = 0
    exact hdl0
  · intro i f hif hmark
    show (runFold w cfg now2 files _).2.get? i = _
    rw [hfold]
    have hmem : f ∈ files := List.get?_mem hif
    have hproc : processFile w cfg now2 f
        ⟨(runScraperModel w cfg now1 files disk0 fs0).fs,
         (runScraperModel w cfg now1 files disk0 fs0).diskMeta.getD []⟩ =
        (skipResult,
         ⟨(runScraperModel w cfg now1 files disk0 fs0).fs,
          (runScraperModel w cfg now1 files disk0 fs0).diskMeta.getD []⟩, []) :=
      processFile_marked w cfg now2 f _ hmark
    rw [List.get?_map, hif]
    simp [hproc]

/-- Witness for C1: one PDF file, empty initial archive; the first run
downloads it and the second run is a pure skip. -/
theorem c1_harvest_idempotent_witness :
    (∀ p, wAllOk.saveOk p = true) ∧
    ((runScraperModel wAllOk cfgDocs "T2" [fileA]
        (runScraperModel wAllOk cfgDocs "T1" [fileA] none []).diskMeta
        (runScraperModel wAllOk cfgDocs "T1" [fileA] none []).fs).fs =
      (runScraperModel wAllOk cfgDocs "T1" [fileA] none []).fs ∧
    (runScraperModel wAllOk cfgDocs "T2" [fileA]
        (runScraperModel wAllOk cfgDocs "T1" [fileA] none []).diskMeta
        (runScraperModel wAllOk cfgDocs "T1" [fileA] none []).fs).diskMeta =
      (runScraperModel wAllOk cfgDocs "T1" [fileA] none []).diskMeta ∧
    (runScraperModel wAllOk cfgDocs "T2" [fileA]
        (runScraperModel wAllOk cfgDocs "T1" [fileA] none []).diskMeta
        (runScraperModel wAllOk cfgDocs "T1" [fileA] none []).fs).counts.downloaded = 0 ∧
    ∀ (i : Nat) (f : OParlFile), ([fileA] : List OParlFile).get? i = some f →
      (lookupAssoc ((runScraperModel wAllOk cfgDocs "T1" [fileA] none []).diskMeta.getD []) f.id).isSome = true →
      (runScraperModel wAllOk cfgDocs "T2" [fileA]
          (runScraperModel wAllOk cfgDocs "T1" [fileA] none []).diskMeta
          (runScraperModel wAllOk cfgDocs "T1" [fileA] none []).fs).perFile.get? i =
        some (skipResult, [])) :=
  ⟨fun _ => rfl,
   c1_harvest_idempotent wAllOk cfgDocs "T1" "T2" [fileA] none [] (fun _ => rfl)⟩

/-! ## Lemmas about `effectAll` and reassembly -/

theorem effectAll_pages (w : ApiWorld) (l : List String)
    (h : ∀ u ∈ l, ∃ r, fetchPaperPage w u = .ok r) :
    ∃ rs, effectAll (fetchPaperPage w) l = .ok rs ∧
      rs.map (·.papers) = l.map (pageRecords w) := by
  induction l with
  | nil => exact ⟨[], rfl, rfl⟩
  | cons u l ih =>
    obtain ⟨r, hr⟩ := h u (List.mem_cons_self u l)
    obtain ⟨rs, hrs, hmap⟩ := ih (fun v hv => h v (List.mem_cons_of_mem u hv))
    refine ⟨r :: rs, ?_, ?_⟩
    · simp [effectAll, hr, hrs]
    · simp [hmap, pageRecords, hr]

theorem effectAll_error_mem {α β ε : Type} (g : α → Except ε β) (l : List α)
    (u : α) (e : ε) (hu : u ∈ l) (he : g u = .error e) :
    ∃ e2, effectAll g l = .error e2 := by
  induction l with
  | nil => cases hu
  | cons a l ih =>
    rcases List.mem_cons.mp hu with rfl | hmem
    · exact ⟨e, by simp [effectAll, he]⟩
    · cases ha : g a with
      | error e1 => exact ⟨e1, by simp [effectAll, ha]⟩
      | ok b =>
        obtain ⟨e2, he2⟩ := ih hmem
        exact ⟨e2, by simp [effectAll, ha, he2]⟩

theorem optionAll_some {β γ : Type} (l : List β) (g : β → Option γ) (v : β → γ)
    (h : ∀ b ∈ l, g b = some (v b)) : optionAll g l = some (l.map v) := by
  induction l with
  | nil => rfl
  | cons b l ih =>
    have hb := h b (List.mem_cons_self b l)
    have hl := ih (fun x hx => h x (List.mem_cons_of_mem b hx))
    simp [optionAll, hb, hl]

theorem find?_pair {α : Type} (v : Nat → α) (order : List Nat) (i : Nat)
    (h : i ∈ order) :
    (order.map (fun j => (j, v j))).find? (fun p => p.1 == i) = some (i, v i) := by
  induction order with
  | nil => cases h
  | cons j os ih =>
    by_cases hj : j = i
    · subst hj
      simp [List.find?]
    · have hmem : i ∈ os := by
        rcases List.mem_cons.mp h with rfl | hmem
        · exact absurd rfl hj
        · exact hmem
      have hb : (j == i) = false := by simpa using hj
      simp [List.find?, hb, ih hmem]

/-- Reassembling pure task results delivered in any completion order that is
a permutation of the indices yields the results in input order. -/
theorem reassemble_perm {α : Type} (n : Nat) (v : Nat → α) (order : List Nat)
    (hperm : order.Perm (List.range n)) :
    reassemble n (order.map (fun j => (j, v j))) =
      some ((List.range n).map v) := by
  unfold reassemble
  apply optionAll_some
  intro i hi
  have hmem : i ∈ order := (hperm.mem_iff).mpr hi
  rw [find?_pair v order i hmem]
  rfl

theorem map_range_getD {α β : Type} (l : List α) (f : α → β) (d : α) :
    (List.range l.length).map (fun i => f (l.getD i d)) = l.map f := by
  induction l with
  | nil => rfl
  | cons a l ih =>
    show (List.range (l.length + 1)).map _ = _
    rw [List.range_succ_eq_map]
    simp only [List.map_cons, List.map_map]
    have hcomp : ((fun i => f ((a :: l).getD i d)) ∘ Nat.succ) =
        (fun i => f (l.getD i d)) := by
      funext i
      simp
    rw [hcomp, ih]
    simp

/-! ## Claim theorems: crawler and fetcher -/

/-- C2: when the first page decodes and carries a `last` link whose `page`
parameter is `P ≥ 2`, the crawler's page list is the seed followed by pages
`2..P` obtained by substituting the page parameter on the seed URL; if all
those pages fetch, the crawl returns exactly the concatenation of the pages'
records in page order; and reassembling the pure page results from any
completion order (any permutation of the indices) gives that same in-order
list. -/
theorem c2_crawl_complete (w : ApiWorld) (startUrl : String) (j0 : Json)
    (d : PaperListResponse) (lastStr : String) (P : Nat)
    (hfetch : effectFetchJson w startUrl = .ok j0)
    (hdec : decodePaperList j0 = .ok d)
    (hlast : d.links.bind (fun l => l.last) = some lastStr)
    (hP : lastPageNum lastStr = some (Int.ofNat P))
    (hP2 : 2 ≤ P)
    (hall : ∀ u ∈ crawlPageUrls startUrl (some lastStr),
      ∃ r, fetchPaperPage w u = .ok r) :
    crawlPageUrls startUrl (some lastStr) =
      startUrl :: (List.range' 2 (P - 1)).map (pageSub startUrl) ∧
    fetchAllPaperPages w startUrl =
      .ok ((crawlPageUrls startUrl (some lastStr)).map (pageRecords w)).flatten ∧
    ∀ order : List Nat,
      order.Perm (List.range (crawlPageUrls startUrl (some lastStr)).length) →
      reassemble (crawlPageUrls startUrl (some lastStr)).length
        (order.map (fun i =>
          (i, pageRecords w ((crawlPageUrls startUrl (some lastStr)).getD i "")))) =
        some ((crawlPageUrls startUrl (some lastStr)).map (pageRecords w)) := by
  have h2i : (2 : Int) ≤ Int.ofNat P := Int.ofNat_le.mpr hP2
  refine ⟨?_, ?_, ?_⟩
  · have htn : (Int.ofNat P).toNat = P := rfl
    simp only [crawlPageUrls, hP, h2i, if_pos, htn]
  · obtain ⟨rs, hrs, hmap⟩ :=
      effectAll_pages w (crawlPageUrls startUrl (some lastStr)) hall
    simp only [fetchAllPaperPages, hfetch, hdec, hlast, bind, Except.bind, hrs, hmap]
  · intro order hperm
    rw [reassemble_perm _ _ order hperm, map_range_getD]

/-- Witness for C2: a two-page synthetic collection; the crawl returns both
pages' records in page order, and reassembly is completion-order independent. -/
theorem c2_crawl_complete_witness :
    (effectFetchJson apiTwoPages "http://x/p" = .ok paperBody1 ∧
     decodePaperList paperBody1 = .ok firstPageDecoded ∧
     firstPageDecoded.links.bind (fun l => l.last) = some "http://x/p?page=2" ∧
     lastPageNum "http://x/p?page=2" = some (Int.ofNat 2) ∧ 2 ≤ 2) ∧
    (crawlPageUrls "http://x/p" (some "http://x/p?page=2") =
      "http://x/p" :: (List.range' 2 (2 - 1)).map (pageSub "http://x/p") ∧
    fetchAllPaperPages apiTwoPages "http://x/p" =
      .ok ((crawlPageUrls "http://x/p" (some "http://x/p?page=2")).map
        (pageRecords apiTwoPages)).flatten ∧
    ∀ order : List Nat,
      order.Perm (List.range (crawlPageUrls "http://x/p" (some "http://x/p?page=2")).length) →
      reassemble (crawlPageUrls "http://x/p" (some "http://x/p?page=2")).length
        (order.map (fun i =>
          (i, pageRecords apiTwoPages
            ((crawlPageUrls "http://x/p" (some "http://x/p?page=2")).getD i "")))) =
        some ((crawlPageUrls "http://x/p" (some "http://x/p?page=2")).map
          (pageRecords apiTwoPages))) :=
  ⟨⟨rfl, rfl, rfl, rfl, by omega⟩,
   c2_crawl_complete apiTwoPages "http://x/p" paperBody1 firstPageDecoded
     "http://x/p?page=2" 2 rfl rfl rfl rfl (by omega)
     (by
       have hl : crawlPageUrls "http://x/p" (some "http://x/p?page=2") =
           ["http://x/p", "http://x/p?page=2"] := by decide
       intro u hu
       rw [hl] at hu
       rcases List.mem_cons.mp hu with rfl | hu2
       · exact ⟨⟨[paper1], some "http://x/p?page=2"⟩, rfl⟩
       · rcases List.mem_cons.mp hu2 with rfl | hu3
         · exact ⟨⟨[paper2], none⟩, rfl⟩
         · cases hu3)⟩

/-- C3: the crawl is all-or-nothing — a first-page fetch or decode failure
becomes the crawl's own failure with the same error, and a failure of any
page in the constructed page list makes the whole crawl fail (the `Except`
result carries no partial page set). -/
theorem c3_crawl_all_or_nothing (w : ApiWorld) (startUrl : String) :
    (∀ e, effectFetchJson w startUrl = .error e →
      fetchAllPaperPages w startUrl = .error e) ∧
    (∀ j0 e, effectFetchJson w startUrl = .ok j0 → decodePaperList j0 = .error e →
      fetchAllPaperPages w startUrl = .error e) ∧
    (∀ j0 d u e, effectFetchJson w startUrl = .ok j0 → decodePaperList j0 = .ok d →
      u ∈ crawlPageUrls startUrl (d.links.bind (fun l => l.last)) →
      fetchPaperPage w u = .error e →
      ∃ e2, fetchAllPaperPages w startUrl = .error e2) := by
  refine ⟨?_, ?_, ?_⟩
  · intro e he
    simp [fetchAllPaperPages, he, bind, Except.bind]
  · intro j0 e hj hd
    simp [fetchAllPaperPages, hj, hd, bind, Except.bind]
  · intro j0 d u e hj hd hu he
    obtain ⟨e2, he2⟩ := effectAll_error_mem (fetchPaperPage w) _ u e hu he
    exact ⟨e2, by simp [fetchAllPaperPages, hj, hd, he2, bind, Except.bind]⟩

/-- Witness for C3: the second page of the two-page collection is down, and
the whole crawl fails. -/
theorem c3_crawl_all_or_nothing_witness :
    (effectFetchJson apiPage2Down "http://x/p" = .ok paperBody1 ∧
     decodePaperList paperBody1 = .ok firstPageDecoded ∧
     "http://x/p?page=2" ∈
       crawlPageUrls "http://x/p" (firstPageDecoded.links.bind (fun l => l.last)) ∧
     fetchPaperPage apiPage2Down "http://x/p?page=2" = .error (.transport "down")) ∧
    (∃ e2, fetchAllPaperPages apiPage2Down "http://x/p" = .error e2) :=
  ⟨⟨rfl, rfl, by decide, rfl⟩,
   (c3_crawl_all_or_nothing apiPage2Down "http://x/p").2.2 paperBody1
     firstPageDecoded "http://x/p?page=2" (.transport "down") rfl rfl (by decide) rfl⟩

/-- C4 counterexample: two remote responses that differ only in their
`links.last` value produce identical `fetchPage` results, so the fetcher does
not return the `last` link verbatim (it is not recoverable from the result). -/
theorem c4_fetchPage_drops_last_link :
    lastLinkOf fileBodyA = some "A" ∧ lastLinkOf fileBodyB = some "B" ∧
    fetchPage apiLastA "u" = fetchPage apiLastB "u" :=
  ⟨rfl, rfl, rfl⟩

/-- C4 amended: the page fetcher fails with a transport error on network
failure, with the status code on a non-2xx response, with a parse error when
the body is not valid JSON, and with the decode error when the envelope or
any record fails to decode; on success it returns the decoded records plus
the optional `next` link only. -/
theorem c4_fetchPage_contract (w : ApiWorld) (url : String) :
    (∀ m, w.http url = .netFail m → fetchPage w url = .error (.transport m)) ∧
    (∀ s t b, w.http url = .resp s t b → respOk s = false →
      fetchPage w url = .error (.httpStatus s t)) ∧
    (∀ s t, w.http url = .resp s t none → respOk s = true →
      fetchPage w url = .error .jsonParse) ∧
    (∀ s t j e, w.http url = .resp s t (some j) → respOk s = true →
      decodeFileList j = .error e → fetchPage w url = .error e) ∧
    (∀ s t j env e, w.http url = .resp s t (some j) → respOk s = true →
      decodeFileList j = .ok env → effectAll decodeOParlFile env.data = .error e →
      fetchPage w url = .error e) ∧
    (∀ s t j env files, w.http url = .resp s t (some j) → respOk s = true →
      decodeFileList j = .ok env → effectAll decodeOParlFile env.data = .ok files →
      fetchPage w url = .ok ⟨files, env.links.bind (·.next)⟩) := by
  refine ⟨?_, ?_, ?_, ?_, ?_, ?_⟩
  · intro m h
    simp [fetchPage, effectFetchJson, h, bind, Except.bind]
  · intro s t b h hok
    simp [fetchPage, effectFetchJson, h, hok, bind, Except.bind]
  · intro s t h hok
    simp [fetchPage, effectFetchJson, h, hok, bind, Except.bind]
  · intro s t j e h hok hd
    simp [fetchPage, effectFetchJson, h, hok, hd, bind, Except.bind]
  · intro s t j env e h hok hd ha
    simp [fetchPage, effectFetchJson, h, hok, hd, ha, bind, Except.bind]
  · intro s t j env files h hok hd ha
    simp [fetchPage, effectFetchJson, h, hok, hd, ha, bind, Except.bind]

/-- Witness for the amended C4: the transport-failure case at a concrete
unreachable remote. -/
theorem c4_fetchPage_contract_witness :
    apiDown.http "u" = HttpOutcome.netFail "ECONNREFUSED" ∧
    fetchPage apiDown "u" = .error (.transport "ECONNREFUSED") :=
  ⟨rfl, (c4_fetchPage_contract apiDown "u").1 "ECONNREFUSED" rfl⟩

/-- Witness for C5: a network failure at a concrete file is converted into
the error result with the state unchanged. -/
theorem c5_download_failures_contained_witness :
    ((lookupAssoc ([] : MetaMap) fileA.id).isSome = false ∧
     mimeIsPdf fileA.mimeType = true ∧
     urlOf fileA = some "https://api.example/file/1/download" ∧
     wNetFail.bin "https://api.example/file/1/download" =
       BinOutcome.netFail "ECONNREFUSED") ∧
    processFile wNetFail cfgDocs "NOW" fileA ⟨[], []⟩ =
      (errorResult, ⟨[], []⟩, ["https://api.example/file/1/download"]) :=
  ⟨⟨by decide, by decide, by decide, rfl⟩,
   (c5_download_failures_contained wNetFail cfgDocs "NOW").1 fileA ⟨[], []⟩
     "https://api.example/file/1/download" "ECONNREFUSED"
     (by decide) (by decide) (by decide) rfl⟩
